import Mathlib

/-!
Verification of the codex workflow orchestrator (src/codex-rs/workflow).

The Rust sources are shallowly embedded:
* paths (`std::path::PathBuf`) are lists of components;
* the file system is an association list from paths to file contents;
* external effects (process spawning, directory-existence checks, clock)
  are supplied as explicit oracle parameters;
* timestamps (`chrono::DateTime<Utc>`) are natural numbers.
-/

namespace CodexWorkflow

/-- A file-system path, as its list of components.  An absolute Unix path
begins with the empty component (so "/a/b" is `["", "a", "b"]`). -/
abbrev FsPath := List String

/-- Mirrors `std::path::Path::is_absolute` for the component model. -/
def FsPath.isAbsolute (p : FsPath) : Bool := p.head? = some ""

/-- Mirrors `std::path::Path::file_name`: the last component, unless the
path is empty, ends at the root, or ends in `..`. -/
def FsPath.fileName (p : FsPath) : Option String :=
  match p.getLast? with
  | some s => if s = ".." ∨ s = "" then none else some s
  | none => none

/-- Mirrors `std::path::PathBuf::set_file_name`: replaces the final
component when `fileName` is defined, otherwise pushes the new name. -/
def FsPath.setFileName (p : FsPath) (name : String) : FsPath :=
  match FsPath.fileName p with
  | some _ => p.dropLast ++ [name]
  | none => p ++ [name]

/-- Mirrors `std::path::Path::parent`. -/
def FsPath.parent (p : FsPath) : Option FsPath :=
  match p with
  | [] => none
  | [_] => if p = [""] then none else some []
  | _ => some p.dropLast

/-- Rendering of a path, used only inside messages and prompts. -/
def FsPath.render (p : FsPath) : String := String.intercalate "/" p

/-- `tmp_path` from state.rs: the target path with `.tmp` appended to its
file name (an empty name when the target has no file name, exactly as the
Rust `unwrap_or_default`). -/
def tmp_path (path : FsPath) : FsPath :=
  let file_name := (FsPath.fileName path).getD ""
  FsPath.setFileName path (file_name ++ ".tmp")

section FileMap

variable {α : Type}

/-- The file system as an association list from path to file content. -/
abbrev FileMap (α : Type) := List (FsPath × α)

/-- Content stored at a path, if any. -/
def fsGet : FileMap α → FsPath → Option α
  | [], _ => none
  | (q, v) :: rest, p => if q = p then some v else fsGet rest p

/-- Remove every entry stored at a path. -/
def fsErase : FileMap α → FsPath → FileMap α
  | [], _ => []
  | (q, v) :: rest, p => if q = p then fsErase rest p else (q, v) :: fsErase rest p

/-- Store content at a path, replacing previous content. -/
def fsSet (fs : FileMap α) (p : FsPath) (v : α) : FileMap α :=
  (p, v) :: fsErase fs p

/-- One atomic file-system operation, at the granularity the save path in
state.rs uses: a whole-file write (`fs::write`) or a rename (`fs::rename`). -/
inductive FsOp (α : Type) where
  | write : FsPath → α → FsOp α
  | rename : FsPath → FsPath → FsOp α

/-- Effect of one operation.  A rename moves the source content onto the
destination (a rename of a missing source leaves the file system alone). -/
def applyOp (fs : FileMap α) : FsOp α → FileMap α
  | FsOp.write p v => fsSet fs p v
  | FsOp.rename src dst =>
    match fsGet fs src with
    | some v => fsSet (fsErase fs src) dst v
    | none => fs

def applyOps (fs : FileMap α) : List (FsOp α) → FileMap α
  | [] => fs
  | op :: rest => applyOps (applyOp fs op) rest

/-- The sequence of file operations performed by `WorkflowState::save`
(state.rs lines 70-82): write the serialized state to the `.tmp` sibling,
then rename it onto the target.  The preceding `create_dir_all` touches no
file contents and is omitted from the operation list. -/
def save_ops (st : α) (path : FsPath) : List (FsOp α) :=
  [FsOp.write (tmp_path path) st, FsOp.rename (tmp_path path) path]

theorem fsGet_fsErase (fs : FileMap α) (p q : FsPath) :
    fsGet (fsErase fs p) q = if p = q then none else fsGet fs q := by
  induction fs with
  | nil => simp [fsErase, fsGet]
  | cons hd tl ih =>
    obtain ⟨pk, pv⟩ := hd
    unfold fsErase
    by_cases hk : pk = p
    · subst hk
      rw [if_pos rfl, ih]
      by_cases hq : pk = q
      · subst hq
        simp [fsGet]
      · simp [fsGet, hq]
    · rw [if_neg hk]
      by_cases hq : pk = q
      · subst hq
        have hpq : ¬ p = pk := fun h => hk h.symm
        simp [fsGet, hpq]
      · simp [fsGet, hq, ih]

theorem fsGet_fsSet (fs : FileMap α) (p q : FsPath) (v : α) :
    fsGet (fsSet fs p v) q = if p = q then some v else fsGet fs q := by
  unfold fsSet
  by_cases h : p = q
  · simp [fsGet, h]
  · simp [fsGet, h, fsGet_fsErase]

end FileMap

/-- `sanitize` from layout.rs (character level): ASCII letters, digits,
`-` and `_` are kept, everything else becomes `_`. -/
def sanitizeChar (c : Char) : Char :=
  if ('a' ≤ c ∧ c ≤ 'z') ∨ ('A' ≤ c ∧ c ≤ 'Z') ∨ ('0' ≤ c ∧ c ≤ '9')
      ∨ c = '-' ∨ c = '_' then c else '_'

/-- `sanitize` from layout.rs: map `sanitizeChar` over the characters. -/
def sanitize (id : String) : String := String.mk (id.data.map sanitizeChar)

/-- The characters `sanitize` may emit. -/
def allowedChar (c : Char) : Prop :=
  ('a' ≤ c ∧ c ≤ 'z') ∨ ('A' ≤ c ∧ c ≤ 'Z') ∨ ('0' ≤ c ∧ c ≤ '9')
    ∨ c = '-' ∨ c = '_'

instance (c : Char) : Decidable (allowedChar c) := by
  unfold allowedChar; infer_instance

/-- `WorkflowLayout` from layout.rs. -/
structure WorkflowLayout where
  root : FsPath
deriving DecidableEq

def WorkflowLayout.state_file (l : WorkflowLayout) : FsPath :=
  l.root ++ ["state.json"]

def WorkflowLayout.ticket_dir (l : WorkflowLayout) (ticket_id : String) : FsPath :=
  l.root ++ ["ticket-" ++ sanitize ticket_id]

def WorkflowLayout.worker_log_path (l : WorkflowLayout) (ticket_id : String) : FsPath :=
  WorkflowLayout.ticket_dir l ticket_id ++ ["worker.log"]

def WorkflowLayout.review_log_path (l : WorkflowLayout) (ticket_id : String) : FsPath :=
  WorkflowLayout.ticket_dir l ticket_id ++ ["review.log"]

def WorkflowLayout.patch_dir (l : WorkflowLayout) (ticket_id : String) : FsPath :=
  WorkflowLayout.ticket_dir l ticket_id ++ ["patches"]

/-! ## Manifest model (manifest.rs) -/

/-- `TicketSpec` from manifest.rs. -/
structure TicketSpec where
  id : String
  summary : String
  requirements : List String
  working_dir : Option FsPath
  prompt : Option String
  review_prompt : Option String
deriving DecidableEq

/-- `WorkflowManifest` from manifest.rs. -/
structure WorkflowManifest where
  source_path : FsPath
  name : Option String
  overview : Option String
  tickets : List TicketSpec
deriving DecidableEq

/-- `TicketSpec::resolved_working_dir`. -/
def TicketSpec.resolved_working_dir (t : TicketSpec) (manifest_dir : FsPath) : FsPath :=
  match t.working_dir with
  | some path => if FsPath.isAbsolute path then path else manifest_dir ++ path
  | none => manifest_dir

/-- `WorkflowManifest::manifest_dir`. -/
def WorkflowManifest.manifest_dir (m : WorkflowManifest) : FsPath :=
  (FsPath.parent m.source_path).getD ["."]

/-- Mirrors `std::path::Path::file_stem` on a file name: the portion
before the final `.`, except that a name whose only `.` is leading is its
own stem. -/
def fileStemOfName (s : String) : String :=
  match s.splitOn "." with
  | [] => s
  | [_] => s
  | first :: rest =>
    if first = "" ∧ rest.length = 1 then s
    else String.intercalate "." ((first :: rest).dropLast)

/-- `WorkflowManifest::workflow_name`: the declared name, else the
manifest file's stem, else "workflow". -/
def WorkflowManifest.workflow_name (m : WorkflowManifest) : String :=
  match m.name with
  | some name => name
  | none =>
    match FsPath.fileName m.source_path with
    | some s => fileStemOfName s
    | none => "workflow"

/-- The duplicate-id scan inside `WorkflowManifest::validate`: walks the
tickets keeping the set of ids seen so far (the Rust `HashSet`). -/
def validateIds : List TicketSpec → List String → Except String Unit
  | [], _ => Except.ok ()
  | t :: rest, seen =>
    if t.id ∈ seen then Except.error ("duplicate ticket id " ++ t.id)
    else validateIds rest (t.id :: seen)

/-- `WorkflowManifest::validate` (manifest.rs lines 41-52). -/
def WorkflowManifest.validate (m : WorkflowManifest) : Except String Unit :=
  if m.tickets.isEmpty then
    Except.error "workflow manifest must contain at least one ticket"
  else validateIds m.tickets []

/-- The tail of `WorkflowManifest::load` after deserialization succeeded
(manifest.rs lines 36-38): record the source path, validate, return the
manifest.  File reading and YAML/TOML parsing are external and are
represented by the already-deserialized `parsed` argument. -/
def load_parsed (parsed : WorkflowManifest) (path : FsPath) :
    Except String WorkflowManifest :=
  let m := { parsed with source_path := path }
  match WorkflowManifest.validate m with
  | Except.error e => Except.error e
  | Except.ok _ => Except.ok m

/-! ## Persistent state model (state.rs) -/

/-- `TicketStatus` from state.rs. -/
inductive TicketStatus where
  | Pending
  | RunningWorker
  | NeedsReview
  | RunningReview
  | Complete
  | Failed
  | Blocked
deriving DecidableEq

/-- `TicketRunState` from state.rs; timestamps are modelled as naturals. -/
structure TicketRunState where
  ticket_id : String
  status : TicketStatus
  worker_log : Option FsPath
  review_log : Option FsPath
  note : Option String
  started_at : Option Nat
  finished_at : Option Nat
deriving DecidableEq

/-- `WorkflowState` from state.rs.  The `BTreeMap` of tickets becomes an
association list with unique keys; every map access in the source goes
through key lookup, which the list models exactly. -/
structure WorkflowState where
  workflow_name : String
  tickets : List (String × TicketRunState)
deriving DecidableEq

/-- `BTreeMap::get` on the ticket map. -/
def findTicket : List (String × TicketRunState) → String → Option TicketRunState
  | [], _ => none
  | (k, v) :: rest, id => if k = id then some v else findTicket rest id

/-- In-place update of one binding (`BTreeMap::get_mut` followed by
mutation); a missing key leaves the map unchanged. -/
def setTicket : List (String × TicketRunState) → String → TicketRunState →
    List (String × TicketRunState)
  | [], _, _ => []
  | (k, v) :: rest, id, ts =>
    if k = id then (k, ts) :: rest else (k, v) :: setTicket rest id ts

/-- The fresh entry both `initialize` and `sync_with_manifest` build for a
ticket id: `Pending`, no logs, no note, no timestamps. -/
def freshTicket (id : String) : TicketRunState :=
  { ticket_id := id
    status := TicketStatus.Pending
    worker_log := none
    review_log := none
    note := none
    started_at := none
    finished_at := none }

/-- `WorkflowState::initialize` (state.rs lines 19-43). -/
def initializeState (manifest : WorkflowManifest) : WorkflowState :=
  { workflow_name := WorkflowManifest.workflow_name manifest
    tickets := manifest.tickets.map (fun t => (t.id, freshTicket t.id)) }

/-- `BTreeMap::entry(..).or_insert_with(..)`: keep an existing binding,
otherwise add the fresh one. -/
def entryOrInsert (ts : List (String × TicketRunState)) (id : String)
    (fresh : TicketRunState) : List (String × TicketRunState) :=
  match findTicket ts id with
  | some _ => ts
  | none => ts ++ [(id, fresh)]

/-- `WorkflowState::sync_with_manifest` (state.rs lines 45-60). -/
def sync_with_manifest (st : WorkflowState) (manifest : WorkflowManifest) :
    WorkflowState :=
  { st with
    tickets := manifest.tickets.foldl
      (fun acc t => entryOrInsert acc t.id (freshTicket t.id)) st.tickets }

/-- `TicketRunState::mark_running`: set the status, set `started_at` on
first entry into a running state, clear the note. -/
def mark_running (now : Nat) (ts : TicketRunState) (status : TicketStatus) :
    TicketRunState :=
  { ts with
    status := status
    started_at := match ts.started_at with
      | none => some now
      | some t => some t
    note := none }

/-- `TicketRunState::mark_finished`: set the status and note, stamp
`finished_at`. -/
def mark_finished (now : Nat) (ts : TicketRunState) (status : TicketStatus)
    (note : Option String) : TicketRunState :=
  { ts with status := status, note := note, finished_at := some now }

/-- `TicketRunState::set_worker_log`. -/
def set_worker_log (ts : TicketRunState) (log_path : FsPath) : TicketRunState :=
  { ts with worker_log := some log_path }

/-- `TicketRunState::set_review_log`. -/
def set_review_log (ts : TicketRunState) (log_path : FsPath) : TicketRunState :=
  { ts with review_log := some log_path }

/-! ## Session launcher model (session.rs) -/

/-- `SessionRequest` from session.rs. -/
structure SessionRequest where
  prompt : String
  working_dir : FsPath
  log_path : FsPath
  model : Option String
deriving DecidableEq

/-- `SessionResult` from session.rs. -/
structure SessionResult where
  success : Bool
  status_code : Option Int
  stdout : String
  stderr : String
deriving DecidableEq

/-- `std::process::Output`: exit code (`None` when killed by a signal)
plus captured streams, with the byte vectors modelled as strings. -/
structure SpawnOutput where
  status_code : Option Int
  stdout : String
  stderr : String
deriving DecidableEq

/-- `ExitStatus::success`: termination by exit code zero. -/
def statusSuccess (o : SpawnOutput) : Bool := o.status_code = some 0

/-- Rust `Debug` rendering of the `Option<i32>` exit code, as interpolated
by `{:?}` in the orchestrator's notes and the log header. -/
def fmtCode : Option Int → String
  | some n => "Some(" ++ toString n ++ ")"
  | none => "None"

/-- `SessionLauncher` from session.rs. -/
structure SessionLauncher where
  codex_bin : FsPath
  config_overrides : List String
deriving DecidableEq

/-- The argument vector `SessionLauncher::run` passes to the external
executable (session.rs lines 22-35). -/
def buildArgs (l : SessionLauncher) (r : SessionRequest) : List String :=
  ["exec"]
    ++ (l.config_overrides.map (fun o => ["-c", o])).flatten
    ++ ["--skip-git-repo-check"]
    ++ (match r.model with
        | some m => ["-m", m]
        | none => [])
    ++ ["-C", FsPath.render r.working_dir, r.prompt]

/-- The text `write_log` produces (session.rs lines 64-77): prompt, exit
status, then the captured streams under separate headers. -/
def logContent (prompt : String) (output : SpawnOutput) : String :=
  "# Prompt\n" ++ prompt ++ "\n\n"
    ++ "# Exit Status: " ++ fmtCode output.status_code ++ "\n\n"
    ++ "## STDOUT\n" ++ output.stdout
    ++ (if output.stdout.endsWith "\n" then "" else "\n")
    ++ "\n## STDERR\n" ++ output.stderr ++ "\n"

/-- External effects of the launcher: the process-spawning oracle (an
error means the executable could not be launched) and whether writing a
given log file succeeds (directory creation plus the file writes of
`write_log`, collapsed to one fallible step). -/
structure LaunchEnv where
  spawn : SessionLauncher → List String → Except String SpawnOutput
  logWriteOk : FsPath → Bool

/-- `write_log` from session.rs: creates the log file and writes
`logContent`; fails exactly when the file cannot be written. -/
def write_log (env : LaunchEnv) (logFs : FileMap String) (log_path : FsPath)
    (prompt : String) (output : SpawnOutput) : Except String (FileMap String) :=
  if env.logWriteOk log_path then
    Except.ok (fsSet logFs log_path (logContent prompt output))
  else Except.error ("failed to create " ++ FsPath.render log_path)

/-- `SessionLauncher::run` (session.rs lines 21-54): spawn, write the log
unconditionally, surface the exit code as the `success` flag. -/
def SessionLauncher.run (l : SessionLauncher) (env : LaunchEnv)
    (logFs : FileMap String) (request : SessionRequest) :
    Except String (SessionResult × FileMap String) :=
  match env.spawn l (buildArgs l request) with
  | Except.error _ =>
    Except.error ("failed to run " ++ FsPath.render l.codex_bin)
  | Except.ok output =>
    match write_log env logFs request.log_path request.prompt output with
    | Except.error e => Except.error e
    | Except.ok logFs2 =>
      Except.ok
        ({ success := statusSuccess output
           status_code := output.status_code
           stdout := output.stdout
           stderr := output.stderr }, logFs2)

/-! ## Orchestrator model (orchestrator.rs)

The orchestrator's effects are threaded through a `World`: the in-memory
`WorkflowState`, the file system holding the persisted state file, the
list of sessions launched so far, and the list of ticket-status
assignments performed so far.  Each Rust function returning
`anyhow::Result<()>` becomes a function `World → Option String × World`
(the `Option String` is the error, `none` meaning `Ok(())`).  Session
launching is the oracle `Env.runSession`, which stands for
`SessionLauncher::run` (its internals are modelled separately above); its
error case covers spawn and log-write failures.  Directory creation
(`ensure_root`, `ensure_ticket_dir`, `create_dir_all` of the patch
directory) touches no file contents and is modelled as succeeding. -/

/-- `WorkflowRunOptions` from orchestrator.rs. -/
structure WorkflowRunOptions where
  manifest_path : FsPath
  artifacts_dir : Option FsPath
  resume : Bool
  codex_bin : Option FsPath
  config_overrides : List String
  worker_model : Option String
  reviewer_model : Option String

/-- Which call site launched a session: the worker step or the review
step. -/
inductive Role where
  | worker
  | review
deriving DecidableEq

/-- External effects visible to the orchestrator. -/
structure Env where
  dirExists : FsPath → Bool
  runSession : SessionRequest → Except String SessionResult
  now : Nat

/-- The mutable world threaded through the orchestrator: the state
aggregate, the file system the state file is saved to, and the trace of
launched sessions and ticket-status assignments. -/
structure World where
  state : WorkflowState
  fs : FileMap WorkflowState
  launches : List (Role × SessionRequest)
  writes : List (String × TicketStatus)
deriving DecidableEq

/-- `WorkflowState::save` as seen at orchestrator granularity: the atomic
temp-file-and-rename protocol (proved atomic over `save_ops` below)
replaces the content at the state path in one step. -/
def World.save (w : World) (state_path : FsPath) : World :=
  { w with fs := fsSet w.fs state_path w.state }

/-- `wrap_sections` from orchestrator.rs.  The line wrapping done by the
external textwrap crate is modelled as the identity on each section; the
spec notes the wrapping has no semantic effect. -/
def wrap_sections (sections : List String) : String :=
  (String.intercalate "" (sections.map (fun s => s ++ "\n\n"))).trim

/-- `build_worker_prompt` from orchestrator.rs. -/
def build_worker_prompt (manifest : WorkflowManifest) (ticket : TicketSpec)
    (layout : WorkflowLayout) : String :=
  let sections :=
    (match manifest.overview with
     | some o => ["Workflow overview:\n" ++ o ++ "\n"]
     | none => [])
    ++ ["Ticket " ++ ticket.id ++ ": " ++ ticket.summary ++ "\n"]
    ++ (if ticket.requirements.isEmpty then []
        else ["Requirements:\n"
          ++ String.intercalate "\n" (ticket.requirements.map (fun r => "- " ++ r))
          ++ "\n"])
    ++ ["Work inside the repository directory and save any generated patches or notes under "
        ++ FsPath.render (WorkflowLayout.patch_dir layout ticket.id)
        ++ ". Log your progress clearly."]
  wrap_sections sections

/-- `build_review_prompt` from orchestrator.rs. -/
def build_review_prompt (manifest : WorkflowManifest) (ticket : TicketSpec)
    (layout : WorkflowLayout) : String :=
  let sections :=
    (match manifest.overview with
     | some o => ["Workflow overview:\n" ++ o ++ "\n"]
     | none => [])
    ++ ["Review ticket " ++ ticket.id ++ " (" ++ ticket.summary
        ++ ") for correctness and completeness."]
    ++ (if ticket.requirements.isEmpty then []
        else ["Confirm that the following requirements are satisfied:\n"
          ++ String.intercalate "\n" (ticket.requirements.map (fun r => "- " ++ r))
          ++ "\n"])
    ++ ["Consult the worker log at "
        ++ FsPath.render (WorkflowLayout.worker_log_path layout ticket.id)
        ++ " and ensure all changes are tested. Provide a concise approval or list blocking issues."]
  wrap_sections sections

/-- The `SessionRequest` built by `run_worker` (orchestrator.rs lines
145-154). -/
def worker_request (manifest : WorkflowManifest) (ticket : TicketSpec)
    (layout : WorkflowLayout) (opts : WorkflowRunOptions) : SessionRequest :=
  { prompt := (ticket.prompt).getD (build_worker_prompt manifest ticket layout)
    working_dir := TicketSpec.resolved_working_dir ticket
      (WorkflowManifest.manifest_dir manifest)
    log_path := WorkflowLayout.worker_log_path layout ticket.id
    model := opts.worker_model }

/-- The `SessionRequest` built by `run_review` (orchestrator.rs lines
217-229); the reviewer model falls back to the worker model. -/
def review_request (manifest : WorkflowManifest) (ticket : TicketSpec)
    (layout : WorkflowLayout) (opts : WorkflowRunOptions) : SessionRequest :=
  { prompt := (ticket.review_prompt).getD (build_review_prompt manifest ticket layout)
    working_dir := TicketSpec.resolved_working_dir ticket
      (WorkflowManifest.manifest_dir manifest)
    log_path := WorkflowLayout.review_log_path layout ticket.id
    model := (opts.reviewer_model).orElse (fun _ => opts.worker_model) }

/-- `run_worker` from orchestrator.rs (lines 123-178).  The `expect` on
the ticket entry after the session is modelled as an error return. -/
def run_worker (env : Env) (ticket : TicketSpec) (manifest : WorkflowManifest)
    (layout : WorkflowLayout) (state_path : FsPath) (opts : WorkflowRunOptions)
    (w : World) : Option String × World :=
  let worker_log := WorkflowLayout.worker_log_path layout ticket.id
  let working_dir := TicketSpec.resolved_working_dir ticket
    (WorkflowManifest.manifest_dir manifest)
  if env.dirExists working_dir = false then
    (some ("working directory " ++ FsPath.render working_dir
      ++ " does not exist for ticket " ++ ticket.id), w)
  else
    let request := worker_request manifest ticket layout opts
    let w1 :=
      match findTicket w.state.tickets ticket.id with
      | some ts =>
        let ts1 := mark_running env.now (set_worker_log ts worker_log)
          TicketStatus.RunningWorker
        { w with
          state := { w.state with tickets := setTicket w.state.tickets ticket.id ts1 }
          writes := w.writes ++ [(ticket.id, TicketStatus.RunningWorker)] }
      | none => w
    let w2 := World.save w1 state_path
    let w3 := { w2 with launches := w2.launches ++ [(Role.worker, request)] }
    match env.runSession request with
    | Except.error e => (some e, w3)
    | Except.ok result =>
      match findTicket w3.state.tickets ticket.id with
      | none => (some "ticket state exists after worker run", w3)
      | some ts =>
        let ts2 :=
          if result.success then
            { ts with
              status := TicketStatus.NeedsReview
              note := some "Worker completed successfully" }
          else
            mark_finished env.now ts TicketStatus.Failed
              (some ("Worker failed with status " ++ fmtCode result.status_code))
        let written :=
          if result.success then TicketStatus.NeedsReview else TicketStatus.Failed
        let w4 :=
          { w3 with
            state := { w3.state with tickets := setTicket w3.state.tickets ticket.id ts2 }
            writes := w3.writes ++ [(ticket.id, written)] }
        (none, World.save w4 state_path)

/-- `run_review` from orchestrator.rs (lines 180-254). -/
def run_review (env : Env) (ticket : TicketSpec) (manifest : WorkflowManifest)
    (layout : WorkflowLayout) (state_path : FsPath) (opts : WorkflowRunOptions)
    (w : World) : Option String × World :=
  match findTicket w.state.tickets ticket.id with
  | none => (none, w)
  | some entry =>
    if entry.status = TicketStatus.Failed ∨ entry.status = TicketStatus.Complete
        ∨ entry.status = TicketStatus.Blocked then
      (none, w)
    else if ¬ (entry.status = TicketStatus.NeedsReview
        ∨ entry.status = TicketStatus.RunningReview) then
      (none, w)
    else
      let review_log := WorkflowLayout.review_log_path layout ticket.id
      let working_dir := TicketSpec.resolved_working_dir ticket
        (WorkflowManifest.manifest_dir manifest)
      if env.dirExists working_dir = false then
        (some ("working directory " ++ FsPath.render working_dir
          ++ " does not exist for ticket " ++ ticket.id), w)
      else
        let request := review_request manifest ticket layout opts
        let w1 :=
          match findTicket w.state.tickets ticket.id with
          | some ts =>
            let ts1 := mark_running env.now (set_review_log ts review_log)
              TicketStatus.RunningReview
            { w with
              state := { w.state with tickets := setTicket w.state.tickets ticket.id ts1 }
              writes := w.writes ++ [(ticket.id, TicketStatus.RunningReview)] }
          | none => w
        let w2 := World.save w1 state_path
        let w3 := { w2 with launches := w2.launches ++ [(Role.review, request)] }
        match env.runSession request with
        | Except.error e => (some e, w3)
        | Except.ok result =>
          match findTicket w3.state.tickets ticket.id with
          | none => (some "ticket state exists after review", w3)
          | some ts =>
            let ts2 :=
              if result.success then
                mark_finished env.now ts TicketStatus.Complete (some "Review passed")
              else
                mark_finished env.now ts TicketStatus.Failed
                  (some ("Review failed with status " ++ fmtCode result.status_code))
            let written :=
              if result.success then TicketStatus.Complete else TicketStatus.Failed
            let w4 :=
              { w3 with
                state := { w3.state with tickets := setTicket w3.state.tickets ticket.id ts2 }
                writes := w3.writes ++ [(ticket.id, written)] }
            (none, World.save w4 state_path)

/-- `process_ticket` from orchestrator.rs (lines 96-121). -/
def process_ticket (env : Env) (ticket : TicketSpec) (manifest : WorkflowManifest)
    (layout : WorkflowLayout) (state_path : FsPath) (opts : WorkflowRunOptions)
    (w : World) : Option String × World :=
  match findTicket w.state.tickets ticket.id with
  | none => (none, w)
  | some entry =>
    match entry.status with
    | TicketStatus.Complete => (none, w)
    | TicketStatus.Failed => (none, w)
    | TicketStatus.Blocked => (none, w)
    | TicketStatus.NeedsReview =>
      run_review env ticket manifest layout state_path opts w
    | TicketStatus.RunningReview =>
      run_review env ticket manifest layout state_path opts w
    | _ =>
      match run_worker env ticket manifest layout state_path opts w with
      | (some e, w1) => (some e, w1)
      | (none, w1) => run_review env ticket manifest layout state_path opts w1

/-- The ticket loop of `run_workflow` (orchestrator.rs lines 65-76): the
`?` on `process_ticket` aborts the remaining run on the first error. -/
def process_all (env : Env) (manifest : WorkflowManifest) (layout : WorkflowLayout)
    (state_path : FsPath) (opts : WorkflowRunOptions) :
    List TicketSpec → World → Option String × World
  | [], w => (none, w)
  | t :: rest, w =>
    match process_ticket env t manifest layout state_path opts w with
    | (some e, w1) => (some e, w1)
    | (none, w1) => process_all env manifest layout state_path opts rest w1

/-- `resolve_artifacts_dir` from orchestrator.rs (lines 328-337). -/
def resolve_artifacts_dir (manifest : WorkflowManifest)
    (override_dir : Option FsPath) : FsPath :=
  match override_dir with
  | some dir => dir
  | none => WorkflowManifest.manifest_dir manifest
      ++ [".codex", "workflows", WorkflowManifest.workflow_name manifest]

/-- The state-selection step of `run_workflow` (orchestrator.rs lines
49-55): load-and-sync only when resuming and a state file exists,
otherwise a fresh all-`Pending` state.  The file system stores state
values directly, so the modelled load cannot fail to parse. -/
def initial_state (opts : WorkflowRunOptions) (fs0 : FileMap WorkflowState)
    (state_path : FsPath) (manifest : WorkflowManifest) : WorkflowState :=
  match opts.resume, fsGet fs0 state_path with
  | true, some st => sync_with_manifest st manifest
  | true, none => initializeState manifest
  | false, _ => initializeState manifest

/-- `run_workflow` from orchestrator.rs (lines 43-80), for an
already-loaded manifest (`WorkflowManifest::load` is covered by
`load_parsed` above). -/
def run_workflow (env : Env) (opts : WorkflowRunOptions)
    (manifest : WorkflowManifest) (fs0 : FileMap WorkflowState) :
    Option String × World :=
  let layout : WorkflowLayout :=
    ⟨resolve_artifacts_dir manifest opts.artifacts_dir⟩
  let state_path := WorkflowLayout.state_file layout
  let w0 : World :=
    { state := initial_state opts fs0 state_path manifest
      fs := fs0
      launches := []
      writes := [] }
  match process_all env manifest layout state_path opts manifest.tickets w0 with
  | (some e, w) => (some e, w)
  | (none, w) => (none, World.save w state_path)

/-- The statuses the orchestrator's transitions may assign. -/
def allowedWrite (st : TicketStatus) : Prop :=
  st = TicketStatus.RunningWorker ∨ st = TicketStatus.NeedsReview
    ∨ st = TicketStatus.RunningReview ∨ st = TicketStatus.Complete
    ∨ st = TicketStatus.Failed

instance (st : TicketStatus) : Decidable (allowedWrite st) := by
  unfold allowedWrite; infer_instance

/-! ## Concrete fixtures used to instantiate theorems with hypotheses -/

/-- A one-ticket manifest. -/
def manifestW : WorkflowManifest :=
  { source_path := ["", "repo", "wf.yaml"]
    name := some "demo"
    overview := none
    tickets := [{ id := "T1", summary := "first", requirements := []
                  working_dir := none, prompt := some "p"
                  review_prompt := some "rp" }] }

/-- The single ticket of `manifestW`. -/
def ticketT1 : TicketSpec :=
  { id := "T1", summary := "first", requirements := []
    working_dir := none, prompt := some "p", review_prompt := some "rp" }

/-- An environment in which every directory exists and every session
exits with code zero. -/
def envW : Env :=
  { dirExists := fun _ => true
    runSession := fun _ =>
      Except.ok { success := true, status_code := some 0, stdout := "", stderr := "" }
    now := 7 }

/-- An environment in which no directory exists. -/
def envNoDir : Env :=
  { dirExists := fun _ => false
    runSession := fun _ =>
      Except.ok { success := true, status_code := some 0, stdout := "", stderr := "" }
    now := 7 }

/-- A run without the resume flag. -/
def optsW : WorkflowRunOptions :=
  { manifest_path := ["", "repo", "wf.yaml"]
    artifacts_dir := none
    resume := false
    codex_bin := none
    config_overrides := []
    worker_model := none
    reviewer_model := none }

/-- A run with the resume flag. -/
def optsResume : WorkflowRunOptions :=
  { optsW with resume := true }

/-- A workflow state whose only ticket sits in `NeedsReview`. -/
def stateNR : WorkflowState :=
  { workflow_name := "demo"
    tickets := [("T1",
      { ticket_id := "T1", status := TicketStatus.NeedsReview
        worker_log := some ["w.log"], review_log := none
        note := some "Worker completed successfully"
        started_at := some 3, finished_at := none })] }

/-- A world wrapping `stateNR` with an empty file system and traces. -/
def worldNR : World :=
  { state := stateNR, fs := [], launches := [], writes := [] }

/-- A world whose only ticket is `Pending`. -/
def worldP : World :=
  { state := initializeState manifestW, fs := [], launches := [], writes := [] }

/-- A launcher fixture. -/
def launcherW : SessionLauncher :=
  { codex_bin := ["", "bin", "codex"], config_overrides := [] }

/-- A launcher environment whose spawned process exits with code 2. -/
def launchEnvExit2 : LaunchEnv :=
  { spawn := fun _ _ =>
      Except.ok { status_code := some 2, stdout := "out", stderr := "err" }
    logWriteOk := fun _ => true }

/-- A session request fixture. -/
def requestW : SessionRequest :=
  { prompt := "p", working_dir := ["", "repo"], log_path := ["", "log"]
    model := none }

/-! ## Theorems -/

theorem sanitizeChar_allowed (c : Char) : allowedChar (sanitizeChar c) := by
  unfold sanitizeChar
  by_cases h : ('a' ≤ c ∧ c ≤ 'z') ∨ ('A' ≤ c ∧ c ≤ 'Z') ∨ ('0' ≤ c ∧ c ≤ '9')
      ∨ c = '-' ∨ c = '_'
  · rw [if_pos h]; exact h
  · rw [if_neg h]; decide

theorem sanitizeChar_of_allowed (c : Char) (h : allowedChar c) :
    sanitizeChar c = c := by
  unfold sanitizeChar
  exact if_pos h

theorem sanitizeChar_idem (c : Char) :
    sanitizeChar (sanitizeChar c) = sanitizeChar c :=
  sanitizeChar_of_allowed _ (sanitizeChar_allowed c)

/-- C10: ticket-id sanitization is idempotent, preserves the character
count, and emits only ASCII letters, digits, `-` and `_`. -/
theorem c10_sanitize (s : String) :
    sanitize (sanitize s) = sanitize s ∧ (sanitize s).length = s.length ∧
    ∀ c ∈ (sanitize s).data, allowedChar c := by
  refine ⟨?_, ?_, ?_⟩
  · show String.mk (List.map sanitizeChar (List.map sanitizeChar s.data))
      = String.mk (List.map sanitizeChar s.data)
    rw [List.map_map]
    exact congrArg String.mk (List.map_congr_left fun c _ => sanitizeChar_idem c)
  · show (List.map sanitizeChar s.data).length = s.data.length
    exact List.length_map s.data sanitizeChar
  · intro c hc
    obtain ⟨a, _, rfl⟩ := List.mem_map.1 hc
    exact sanitizeChar_allowed a

/-- Witness for C10 at the concrete id used by the layout tests. -/
theorem c10_sanitize_witness :
    sanitize (sanitize "ABC/123") = sanitize "ABC/123" ∧
    (sanitize "ABC/123").length = ("ABC/123" : String).length ∧
    allowedChar 'A' := by
  obtain ⟨h1, h2, h3⟩ := c10_sanitize "ABC/123"
  exact ⟨h1, h2, h3 'A' (by decide)⟩

theorem validateIds_eq_ok (ts : List TicketSpec) (seen : List String) :
    validateIds ts seen = Except.ok () ↔
      ((ts.map TicketSpec.id).Nodup ∧ ∀ t ∈ ts, t.id ∉ seen) := by
  induction ts generalizing seen with
  | nil => simp [validateIds]
  | cons t rest ih =>
    unfold validateIds
    by_cases h : t.id ∈ seen
    · simp only [if_pos h]
      constructor
      · intro hcontra; cases hcontra
      · intro ⟨_, hall⟩
        exact absurd h (hall t (List.mem_cons_self t rest))
    · rw [if_neg h, ih]
      simp only [List.map_cons, List.nodup_cons, List.mem_map, List.mem_cons]
      constructor
      · intro ⟨hnd, hall⟩
        refine ⟨⟨?_, hnd⟩, ?_⟩
        · intro ⟨x, hx, hxid⟩
          exact (hall x hx) (Or.inl hxid)
        · intro x hx
          rcases hx with rfl | hx
          · exact h
          · intro hmem
            exact (hall x hx) (Or.inr hmem)
      · intro ⟨⟨hni, hnd⟩, hall⟩
        refine ⟨hnd, ?_⟩
        intro x hx hmem
        rcases hmem with hx1 | hx2
        · exact hni ⟨x, hx, hx1⟩
        · exact hall x (Or.inr hx) hx2

theorem validate_eq_ok (m : WorkflowManifest) :
    WorkflowManifest.validate m = Except.ok () ↔
      (m.tickets ≠ [] ∧ (m.tickets.map TicketSpec.id).Nodup) := by
  unfold WorkflowManifest.validate
  by_cases h : m.tickets.isEmpty
  · rw [if_pos h]
    have : m.tickets = [] := List.isEmpty_iff.1 h
    constructor
    · intro hcontra; cases hcontra
    · intro ⟨hne, _⟩; exact absurd this hne
  · rw [if_neg h, validateIds_eq_ok]
    have hne : m.tickets ≠ [] := fun he => h (List.isEmpty_iff.2 he)
    simp [hne]

/-- C7: after successful deserialization, `load` fails exactly when the
ticket list is empty or some id repeats, and otherwise returns the
manifest (with its source path recorded). -/
theorem c7_load_validation (parsed : WorkflowManifest) (path : FsPath) :
    (load_parsed parsed path = Except.ok { parsed with source_path := path } ↔
      (parsed.tickets ≠ [] ∧ (parsed.tickets.map TicketSpec.id).Nodup)) ∧
    ((∃ e, load_parsed parsed path = Except.error e) ↔
      (parsed.tickets = [] ∨ ¬ (parsed.tickets.map TicketSpec.id).Nodup)) := by
  have hval := validate_eq_ok { parsed with source_path := path }
  unfold load_parsed
  constructor
  · cases hv : WorkflowManifest.validate { parsed with source_path := path } with
    | error e =>
      rw [hv] at hval
      simp only [hv]
      constructor
      · intro hcontra; cases hcontra
      · intro hok
        have : Except.error (ε := String) (α := Unit) e = Except.ok () := hval.2 hok
        cases this
    | ok u =>
      cases u
      rw [hv] at hval
      simp only [hv]
      simpa using hval.1 rfl
  · cases hv : WorkflowManifest.validate { parsed with source_path := path } with
    | error e =>
      rw [hv] at hval
      simp only [hv]
      constructor
      · intro _
        by_contra hcontra
        push_neg at hcontra
        have : Except.error (ε := String) (α := Unit) e = Except.ok () :=
          hval.2 ⟨hcontra.1, hcontra.2⟩
        cases this
      · intro _; exact ⟨e, rfl⟩
    | ok u =>
      cases u
      rw [hv] at hval
      simp only [hv]
      have hgood := hval.1 rfl
      constructor
      · intro ⟨e, he⟩; cases he
      · intro hbad
        rcases hbad with hb | hb
        · exact absurd hb hgood.1
        · exact absurd hgood.2 hb

/-- C5: the launcher errors exactly when spawning or writing the log
fails; a non-zero exit code yields an ordinary result with
`success = false` and the raw status code. -/
theorem c5_launcher_errors (l : SessionLauncher) (env : LaunchEnv)
    (logFs : FileMap String) (request : SessionRequest) :
    ((∃ e, SessionLauncher.run l env logFs request = Except.error e) ↔
      ((∃ e, env.spawn l (buildArgs l request) = Except.error e)
        ∨ env.logWriteOk request.log_path = false)) ∧
    (∀ output, env.spawn l (buildArgs l request) = Except.ok output →
      env.logWriteOk request.log_path = true →
      output.status_code ≠ some 0 →
      SessionLauncher.run l env logFs request = Except.ok
        ({ success := false
           status_code := output.status_code
           stdout := output.stdout
           stderr := output.stderr },
         fsSet logFs request.log_path (logContent request.prompt output))) := by
  constructor
  · cases hs : env.spawn l (buildArgs l request) with
    | error e => simp [SessionLauncher.run, hs]
    | ok output =>
      by_cases hw : env.logWriteOk request.log_path
      · simp [SessionLauncher.run, write_log, hs, hw]
      · simp [SessionLauncher.run, write_log, hs, hw]
  · intro output hspawn hlog hcode
    have hsucc : statusSuccess output = false := by
      unfold statusSuccess
      exact decide_eq_false hcode
    simp [SessionLauncher.run, write_log, hspawn, hlog, hsucc]

/-- Witness for C5: a spawn that exits with code 2 and a writable log. -/
theorem c5_launcher_errors_witness :
    SessionLauncher.run launcherW launchEnvExit2 [] requestW = Except.ok
      ({ success := false
         status_code := some 2
         stdout := "out"
         stderr := "err" },
       fsSet [] requestW.log_path
         (logContent requestW.prompt
           { status_code := some 2, stdout := "out", stderr := "err" })) :=
  (c5_launcher_errors launcherW launchEnvExit2 [] requestW).2
    { status_code := some 2, stdout := "out", stderr := "err" }
    rfl rfl (by decide)

theorem append_tmp_length (s : String) : (s ++ ".tmp").length = s.length + 4 := by
  rw [String.length_append]
  rfl

theorem append_tmp_ne (s : String) : ¬ (s ++ ".tmp" = s) := by
  intro h
  have hlen := congrArg String.length h
  rw [append_tmp_length] at hlen
  omega

theorem append_tmp_not_special (s : String) :
    ¬ (s ++ ".tmp" = ".." ∨ s ++ ".tmp" = "") := by
  intro h
  have h2 : (".." : String).length = 2 := rfl
  have h0 : ("" : String).length = 0 := rfl
  rcases h with h | h <;>
    (have hlen := congrArg String.length h; rw [append_tmp_length] at hlen; omega)

theorem fileName_concat (l : List String) (f : String) (hf : ¬ (f = ".." ∨ f = "")) :
    FsPath.fileName (l ++ [f]) = some f := by
  simp only [FsPath.fileName, List.getLast?_concat, if_neg hf]

theorem fileName_elim (p : FsPath) (f : String) (h : FsPath.fileName p = some f) :
    ∃ l, p = l ++ [f] ∧ ¬ (f = ".." ∨ f = "") := by
  cases hg : p.getLast? with
  | none =>
    simp only [FsPath.fileName, hg] at h
    cases h
  | some s =>
    simp only [FsPath.fileName, hg] at h
    by_cases hsp : s = ".." ∨ s = ""
    · rw [if_pos hsp] at h; cases h
    · rw [if_neg hsp] at h
      obtain ⟨l, rfl⟩ := List.getLast?_eq_some_iff.1 hg
      cases h
      exact ⟨l, rfl, hsp⟩

theorem tmp_path_concat (l : List String) (f : String) (hf : ¬ (f = ".." ∨ f = "")) :
    tmp_path (l ++ [f]) = l ++ [f ++ ".tmp"] := by
  unfold tmp_path FsPath.setFileName
  rw [fileName_concat l f hf]
  simp [List.dropLast_concat]

theorem applyOps_save_pair (fs : FileMap WorkflowState) (st : WorkflowState)
    (tmpp target : FsPath) :
    applyOps fs [FsOp.write tmpp st, FsOp.rename tmpp target]
      = fsSet (fsErase (fsSet fs tmpp st) tmpp) target st := by
  show applyOp (applyOp fs (FsOp.write tmpp st)) (FsOp.rename tmpp target) = _
  have h1 : applyOp fs (FsOp.write tmpp st) = fsSet fs tmpp st := rfl
  rw [h1]
  have h2 : fsGet (fsSet fs tmpp st) tmpp = some st := by
    rw [fsGet_fsSet, if_pos rfl]
  simp only [applyOp, h2]

/-- C1: `save` writes the whole state to the sibling temporary file whose
name is the target's file name with `.tmp` appended, then renames it onto
the target; after any prefix of these operations the target path holds
either its previous content or the complete new state, and afterwards it
holds the new state. -/
theorem c1_save_atomic (st : WorkflowState) (path : FsPath) (f : String)
    (fs : FileMap WorkflowState) (h : FsPath.fileName path = some f) :
    FsPath.fileName (tmp_path path) = some (f ++ ".tmp") ∧
    (tmp_path path).dropLast = path.dropLast ∧
    (∀ k, fsGet (applyOps fs ((save_ops st path).take k)) path = fsGet fs path ∨
      fsGet (applyOps fs ((save_ops st path).take k)) path = some st) ∧
    fsGet (applyOps fs (save_ops st path)) path = some st := by
  obtain ⟨l, rfl, hf⟩ := fileName_elim path f h
  have htmp := tmp_path_concat l f hf
  have hne : ¬ (tmp_path (l ++ [f]) = l ++ [f]) := by
    rw [htmp]
    intro heq
    have := List.append_inj_right heq (by rfl)
    exact append_tmp_ne f (List.cons_eq_cons.1 this).1
  have hfull : fsGet (applyOps fs (save_ops st (l ++ [f]))) (l ++ [f]) = some st := by
    unfold save_ops
    rw [applyOps_save_pair, fsGet_fsSet, if_pos rfl]
  refine ⟨?_, ?_, ?_, hfull⟩
  · rw [htmp]
    exact fileName_concat l (f ++ ".tmp") (append_tmp_not_special f)
  · rw [htmp, List.dropLast_concat, List.dropLast_concat]
  · intro k
    match k with
    | 0 => exact Or.inl rfl
    | 1 =>
      refine Or.inl ?_
      show fsGet (applyOp fs (FsOp.write (tmp_path (l ++ [f])) st)) (l ++ [f]) = _
      have h1 : applyOp fs (FsOp.write (tmp_path (l ++ [f])) st)
          = fsSet fs (tmp_path (l ++ [f])) st := rfl
      rw [h1, fsGet_fsSet, if_neg hne]
    | (n + 2) =>
      refine Or.inr ?_
      have htake : (save_ops st (l ++ [f])).take (n + 2) = save_ops st (l ++ [f]) := by
        simp [save_ops, List.take]
      rw [htake]
      exact hfull

/-- Witness for C1 at a concrete state path. -/
theorem c1_save_atomic_witness :
    FsPath.fileName ["", "root", "state.json"] = some "state.json" ∧
    (FsPath.fileName (tmp_path ["", "root", "state.json"])
        = some ("state.json" ++ ".tmp") ∧
      (tmp_path ["", "root", "state.json"]).dropLast
        = (["", "root", "state.json"] : FsPath).dropLast ∧
      (∀ k, fsGet (applyOps ([] : FileMap WorkflowState)
          ((save_ops stateNR ["", "root", "state.json"]).take k)) ["", "root", "state.json"]
          = fsGet ([] : FileMap WorkflowState) ["", "root", "state.json"] ∨
        fsGet (applyOps ([] : FileMap WorkflowState)
          ((save_ops stateNR ["", "root", "state.json"]).take k)) ["", "root", "state.json"]
          = some stateNR) ∧
      fsGet (applyOps ([] : FileMap WorkflowState)
        (save_ops stateNR ["", "root", "state.json"])) ["", "root", "state.json"]
        = some stateNR) :=
  ⟨by decide, c1_save_atomic stateNR ["", "root", "state.json"] "state.json" [] (by decide)⟩

theorem findTicket_append_of_some (ts1 ts2 : List (String × TicketRunState))
    (id : String) (v : TicketRunState) (h : findTicket ts1 id = some v) :
    findTicket (ts1 ++ ts2) id = some v := by
  induction ts1 with
  | nil => cases h
  | cons hd tl ih =>
    obtain ⟨k, w⟩ := hd
    by_cases hk : k = id
    · simp only [findTicket, if_pos hk] at h
      simp only [List.cons_append, findTicket, if_pos hk]
      exact h
    · simp only [findTicket, if_neg hk] at h
      simp only [List.cons_append, findTicket, if_neg hk]
      exact ih h

theorem findTicket_append_of_none (ts1 ts2 : List (String × TicketRunState))
    (id : String) (h : findTicket ts1 id = none) :
    findTicket (ts1 ++ ts2) id = findTicket ts2 id := by
  induction ts1 with
  | nil => rfl
  | cons hd tl ih =>
    obtain ⟨k, w⟩ := hd
    by_cases hk : k = id
    · simp only [findTicket, if_pos hk] at h
      cases h
    · simp only [findTicket, if_neg hk] at h
      simp only [List.cons_append, findTicket, if_neg hk]
      exact ih h

theorem entryOrInsert_preserves (ts : List (String × TicketRunState))
    (id id2 : String) (fresh v : TicketRunState)
    (h : findTicket ts id2 = some v) :
    findTicket (entryOrInsert ts id fresh) id2 = some v := by
  unfold entryOrInsert
  cases hf : findTicket ts id with
  | some w => exact h
  | none => exact findTicket_append_of_some ts [(id, fresh)] id2 v h

theorem entryOrInsert_adds (ts : List (String × TicketRunState))
    (id : String) (fresh : TicketRunState) (h : findTicket ts id = none) :
    findTicket (entryOrInsert ts id fresh) id = some fresh := by
  unfold entryOrInsert
  rw [h, findTicket_append_of_none ts [(id, fresh)] id h]
  simp [findTicket]

theorem entryOrInsert_none (ts : List (String × TicketRunState))
    (id id2 : String) (fresh : TicketRunState) (hne : ¬ id = id2)
    (h : findTicket ts id2 = none) :
    findTicket (entryOrInsert ts id fresh) id2 = none := by
  unfold entryOrInsert
  cases hf : findTicket ts id with
  | some w => exact h
  | none =>
    rw [findTicket_append_of_none ts [(id, fresh)] id2 h]
    simp [findTicket, hne]

theorem syncFold_preserves (specs : List TicketSpec)
    (acc : List (String × TicketRunState)) (id : String) (v : TicketRunState)
    (h : findTicket acc id = some v) :
    findTicket
      (specs.foldl (fun acc t => entryOrInsert acc t.id (freshTicket t.id)) acc)
      id = some v := by
  induction specs generalizing acc with
  | nil => exact h
  | cons t rest ih =>
    exact ih _ (entryOrInsert_preserves acc t.id id (freshTicket t.id) v h)

theorem syncFold_fresh (specs : List TicketSpec)
    (acc : List (String × TicketRunState)) (t : TicketSpec)
    (ht : t ∈ specs) (h : findTicket acc t.id = none) :
    findTicket
      (specs.foldl (fun acc t => entryOrInsert acc t.id (freshTicket t.id)) acc)
      t.id = some (freshTicket t.id) := by
  induction specs generalizing acc with
  | nil => cases ht
  | cons t0 rest ih =>
    rcases List.mem_cons.1 ht with rfl | htr
    · exact syncFold_preserves rest _ t.id (freshTicket t.id)
        (entryOrInsert_adds acc t.id (freshTicket t.id) h)
    · by_cases hid : t0.id = t.id
      · have hadds : findTicket (entryOrInsert acc t0.id (freshTicket t0.id)) t.id
            = some (freshTicket t.id) := by
          rw [hid]
          exact entryOrInsert_adds acc t.id (freshTicket t.id) h
        exact syncFold_preserves rest _ t.id (freshTicket t.id) hadds
      · exact ih _ htr (entryOrInsert_none acc t0.id t.id (freshTicket t0.id) hid h)

theorem syncFold_total (specs : List TicketSpec)
    (acc : List (String × TicketRunState)) (t : TicketSpec) (ht : t ∈ specs) :
    (findTicket
      (specs.foldl (fun acc t => entryOrInsert acc t.id (freshTicket t.id)) acc)
      t.id).isSome = true := by
  cases h : findTicket acc t.id with
  | some v =>
    rw [syncFold_preserves specs acc t.id v h]
    rfl
  | none =>
    rw [syncFold_fresh specs acc t ht h]
    rfl

/-- C4: `sync_with_manifest` preserves every existing entry unchanged
(never overwrites, never removes), inserts a fresh `Pending` entry — no
logs, note, or timestamps — for each manifest ticket id not yet present,
and afterwards every manifest ticket id has an entry. -/
theorem c4_sync_with_manifest (st : WorkflowState) (manifest : WorkflowManifest) :
    (∀ id v, findTicket st.tickets id = some v →
      findTicket (sync_with_manifest st manifest).tickets id = some v) ∧
    (∀ t ∈ manifest.tickets, findTicket st.tickets t.id = none →
      findTicket (sync_with_manifest st manifest).tickets t.id
        = some (freshTicket t.id)) ∧
    (∀ t ∈ manifest.tickets,
      (findTicket (sync_with_manifest st manifest).tickets t.id).isSome = true) := by
  refine ⟨?_, ?_, ?_⟩
  · intro id v h
    exact syncFold_preserves manifest.tickets st.tickets id v h
  · intro t ht h
    exact syncFold_fresh manifest.tickets st.tickets t ht h
  · intro t ht
    exact syncFold_total manifest.tickets st.tickets t ht

/-- Witness for C4: syncing `stateNR` (holding only T1) against a
manifest that adds ticket T2. -/
theorem c4_sync_with_manifest_witness :
    findTicket
      (sync_with_manifest stateNR
        { manifestW with tickets := manifestW.tickets ++
            [{ id := "T2", summary := "second", requirements := []
               working_dir := none, prompt := none, review_prompt := none }] }).tickets
      "T2" = some (freshTicket "T2") ∧
    findTicket
      (sync_with_manifest stateNR
        { manifestW with tickets := manifestW.tickets ++
            [{ id := "T2", summary := "second", requirements := []
               working_dir := none, prompt := none, review_prompt := none }] }).tickets
      "T1" = findTicket stateNR.tickets "T1" := by
  constructor
  · exact (c4_sync_with_manifest stateNR _).2.1
      { id := "T2", summary := "second", requirements := []
        working_dir := none, prompt := none, review_prompt := none }
      (by decide) (by decide)
  · have h := (c4_sync_with_manifest stateNR
      { manifestW with tickets := manifestW.tickets ++
          [{ id := "T2", summary := "second", requirements := []
             working_dir := none, prompt := none, review_prompt := none }] }).1
      "T1" (stateNR.tickets.head (by decide)).2 (by decide)
    rw [h]
    decide

theorem findTicket_setTicket_self (ts : List (String × TicketRunState))
    (id : String) (v w : TicketRunState) (h : findTicket ts id = some w) :
    findTicket (setTicket ts id v) id = some v := by
  induction ts with
  | nil => cases h
  | cons hd tl ih =>
    obtain ⟨k, x⟩ := hd
    by_cases hk : k = id
    · simp only [setTicket, if_pos hk, findTicket]
    · simp only [findTicket, if_neg hk] at h
      simp only [setTicket, if_neg hk, findTicket]
      exact ih h

theorem findTicket_setTicket_ne (ts : List (String × TicketRunState))
    (id id2 : String) (v : TicketRunState) (hne : ¬ id = id2) :
    findTicket (setTicket ts id v) id2 = findTicket ts id2 := by
  induction ts with
  | nil => rfl
  | cons hd tl ih =>
    obtain ⟨k, x⟩ := hd
    by_cases hk : k = id
    · have hk2 : ¬ k = id2 := fun h => hne (hk ▸ h)
      simp only [setTicket, if_pos hk, findTicket, if_neg hk2]
    · simp only [setTicket, if_neg hk, findTicket]
      by_cases hk2 : k = id2
      · rw [if_pos hk2, if_pos hk2]
      · rw [if_neg hk2, if_neg hk2]
        exact ih

theorem mark_running_worker_log (now : Nat) (ts : TicketRunState)
    (st : TicketStatus) : (mark_running now ts st).worker_log = ts.worker_log := rfl

theorem mark_finished_worker_log (now : Nat) (ts : TicketRunState)
    (st : TicketStatus) (note : Option String) :
    (mark_finished now ts st note).worker_log = ts.worker_log := rfl

theorem set_review_log_worker_log (ts : TicketRunState) (p : FsPath) :
    (set_review_log ts p).worker_log = ts.worker_log := rfl

/-- Frame conditions of `run_review`, whatever the environment does: any
session it launches is a review session, and no ticket's `worker_log`
field changes. -/
theorem run_review_frame (env : Env) (ticket : TicketSpec)
    (manifest : WorkflowManifest) (layout : WorkflowLayout) (state_path : FsPath)
    (opts : WorkflowRunOptions) (w : World) :
    (∀ p ∈ (run_review env ticket manifest layout state_path opts w).2.launches,
      p ∈ w.launches ∨ p.1 = Role.review) ∧
    (∀ id,
      (findTicket
        (run_review env ticket manifest layout state_path opts w).2.state.tickets
        id).map TicketRunState.worker_log
      = (findTicket w.state.tickets id).map TicketRunState.worker_log) := by
  cases hf : findTicket w.state.tickets ticket.id with
  | none =>
    have hrr : run_review env ticket manifest layout state_path opts w = (none, w) := by
      simp only [run_review, hf]
    rw [hrr]
    exact ⟨fun p hp => Or.inl hp, fun id => rfl⟩
  | some entry =>
    by_cases h1 : entry.status = TicketStatus.Failed
        ∨ entry.status = TicketStatus.Complete
        ∨ entry.status = TicketStatus.Blocked
    · have hrr : run_review env ticket manifest layout state_path opts w = (none, w) := by
        simp only [run_review, hf, if_pos h1]
      rw [hrr]
      exact ⟨fun p hp => Or.inl hp, fun id => rfl⟩
    · by_cases h2 : ¬ (entry.status = TicketStatus.NeedsReview
          ∨ entry.status = TicketStatus.RunningReview)
      · have hrr : run_review env ticket manifest layout state_path opts w = (none, w) := by
          simp only [run_review, hf, if_neg h1, if_pos h2]
        rw [hrr]
        exact ⟨fun p hp => Or.inl hp, fun id => rfl⟩
      · by_cases h3 : env.dirExists (TicketSpec.resolved_working_dir ticket
            (WorkflowManifest.manifest_dir manifest)) = false
        · have hrr : (run_review env ticket manifest layout state_path opts w).2 = w := by
            simp only [run_review, hf, if_neg h1, if_neg h2, if_pos h3]
          rw [hrr]
          exact ⟨fun p hp => Or.inl hp, fun id => rfl⟩
        · cases hr : env.runSession (review_request manifest ticket layout opts) with
          | error e =>
            simp only [run_review, hf, if_neg h1, if_neg h2, if_neg h3, hr, World.save]
            constructor
            · intro p hp
              rcases List.mem_append.1 hp with hin | hone
              · exact Or.inl hin
              · rcases List.mem_singleton.1 hone with rfl
                exact Or.inr rfl
            · intro id
              by_cases hid : ticket.id = id
              · subst hid
                rw [findTicket_setTicket_self _ _ _ entry hf, hf]
                rfl
              · rw [findTicket_setTicket_ne _ _ _ _ hid]
          | ok result =>
            have hset : findTicket
                (setTicket w.state.tickets ticket.id
                  (mark_running env.now
                    (set_review_log entry
                      (WorkflowLayout.review_log_path layout ticket.id))
                    TicketStatus.RunningReview)) ticket.id
                = some (mark_running env.now
                    (set_review_log entry
                      (WorkflowLayout.review_log_path layout ticket.id))
                    TicketStatus.RunningReview) :=
              findTicket_setTicket_self _ _ _ entry hf
            simp only [run_review, hf, if_neg h1, if_neg h2, if_neg h3, hr,
              World.save, hset]
            constructor
            · intro p hp
              rcases List.mem_append.1 hp with hin | hone
              · exact Or.inl hin
              · rcases List.mem_singleton.1 hone with rfl
                exact Or.inr rfl
            · intro id
              by_cases hid : ticket.id = id
              · subst hid
                rw [findTicket_setTicket_self _ _ _ _ hset, hf]
                by_cases hs : result.success <;>
                  simp [hs, mark_finished_worker_log, mark_running_worker_log,
                    set_review_log_worker_log]
              · rw [findTicket_setTicket_ne _ _ _ _ hid,
                  findTicket_setTicket_ne _ _ _ _ hid]

/-- C2: when a ticket sits in `NeedsReview` or `RunningReview`,
`process_ticket` runs only the review step: any launched session is a
review session, and the ticket's `worker_log` is unchanged. -/
theorem c2_review_only (env : Env) (ticket : TicketSpec)
    (manifest : WorkflowManifest) (layout : WorkflowLayout) (state_path : FsPath)
    (opts : WorkflowRunOptions) (w : World) (entry : TicketRunState)
    (h : findTicket w.state.tickets ticket.id = some entry)
    (hst : entry.status = TicketStatus.NeedsReview
      ∨ entry.status = TicketStatus.RunningReview) :
    process_ticket env ticket manifest layout state_path opts w
      = run_review env ticket manifest layout state_path opts w ∧
    (∀ p ∈ (process_ticket env ticket manifest layout state_path opts w).2.launches,
      p ∈ w.launches ∨ p.1 = Role.review) ∧
    (findTicket
      (process_ticket env ticket manifest layout state_path opts w).2.state.tickets
      ticket.id).map TicketRunState.worker_log = some entry.worker_log := by
  have heq : process_ticket env ticket manifest layout state_path opts w
      = run_review env ticket manifest layout state_path opts w := by
    rcases hst with hst | hst <;> simp only [process_ticket, h, hst]
  have hframe := run_review_frame env ticket manifest layout state_path opts w
  refine ⟨heq, ?_, ?_⟩
  · rw [heq]; exact hframe.1
  · rw [heq, hframe.2 ticket.id, h]
    rfl

/-- Witness for C2: a `NeedsReview` ticket processed in an environment
where the review session succeeds. -/
theorem c2_review_only_witness :
    process_ticket envW ticketT1 manifestW
        ⟨["", "root"]⟩ ["", "root", "state.json"] optsW worldNR
      = run_review envW ticketT1 manifestW
        ⟨["", "root"]⟩ ["", "root", "state.json"] optsW worldNR ∧
    (findTicket
      (process_ticket envW ticketT1 manifestW
        ⟨["", "root"]⟩ ["", "root", "state.json"] optsW worldNR).2.state.tickets
      "T1").map TicketRunState.worker_log = some (some ["w.log"]) := by
  have h := c2_review_only envW ticketT1 manifestW
    ⟨["", "root"]⟩ ["", "root", "state.json"] optsW worldNR
    (stateNR.tickets.head (by decide)).2 (by decide) (Or.inl (by decide))
  exact ⟨h.1, h.2.2⟩

/-- C3: after the worker step, a session exiting successfully moves the
ticket to `NeedsReview` with the note "Worker completed successfully"; a
failing session moves it to `Failed` with the exit status recorded in the
note and `finished_at` stamped. -/
theorem c3_worker_outcome (env : Env) (ticket : TicketSpec)
    (manifest : WorkflowManifest) (layout : WorkflowLayout) (state_path : FsPath)
    (opts : WorkflowRunOptions) (w : World) (entry : TicketRunState)
    (res : SessionResult)
    (h : findTicket w.state.tickets ticket.id = some entry)
    (_hrw : entry.status = TicketStatus.RunningWorker)
    (hdir : env.dirExists (TicketSpec.resolved_working_dir ticket
      (WorkflowManifest.manifest_dir manifest)) = true)
    (hsess : env.runSession (worker_request manifest ticket layout opts)
      = Except.ok res) :
    (run_worker env ticket manifest layout state_path opts w).1 = none ∧
    ∃ entry2,
      findTicket
        (run_worker env ticket manifest layout state_path opts w).2.state.tickets
        ticket.id = some entry2 ∧
      (res.success = true → entry2.status = TicketStatus.NeedsReview ∧
        entry2.note = some "Worker completed successfully" ∧
        entry2.finished_at = entry.finished_at) ∧
      (res.success = false → entry2.status = TicketStatus.Failed ∧
        entry2.note = some ("Worker failed with status " ++ fmtCode res.status_code) ∧
        entry2.finished_at = some env.now) := by
  have hdir2 : ¬ env.dirExists (TicketSpec.resolved_working_dir ticket
      (WorkflowManifest.manifest_dir manifest)) = false := by
    rw [hdir]; intro hcontra; cases hcontra
  have hset : findTicket
      (setTicket w.state.tickets ticket.id
        (mark_running env.now
          (set_worker_log entry (WorkflowLayout.worker_log_path layout ticket.id))
          TicketStatus.RunningWorker)) ticket.id
      = some (mark_running env.now
          (set_worker_log entry (WorkflowLayout.worker_log_path layout ticket.id))
          TicketStatus.RunningWorker) :=
    findTicket_setTicket_self _ _ _ entry h
  simp only [run_worker, if_neg hdir2, h, hsess, World.save, hset]
  refine ⟨by trivial, ?_⟩
  by_cases hs : res.success
  · refine ⟨_, findTicket_setTicket_self _ _ _ _ hset, ?_, ?_⟩
    · intro _
      rw [if_pos hs]
      simp [mark_running, set_worker_log]
    · intro hfalse
      rw [hs] at hfalse
      cases hfalse
  · have hs2 : res.success = false := by
      cases hb : res.success
      · rfl
      · exact absurd hb hs
    refine ⟨_, findTicket_setTicket_self _ _ _ _ hset, ?_, ?_⟩
    · intro htrue
      rw [htrue] at hs2
      cases hs2
    · intro _
      rw [if_neg hs]
      simp [mark_finished, mark_running, set_worker_log]

/-- Witness for C3: a `RunningWorker` ticket whose worker session exits
zero. -/
theorem c3_worker_outcome_witness :
    (run_worker envW ticketT1 manifestW ⟨["", "root"]⟩ ["", "root", "state.json"]
      optsW
      { state := { workflow_name := "demo"
                   tickets := [("T1",
                     { ticket_id := "T1", status := TicketStatus.RunningWorker
                       worker_log := none, review_log := none, note := none
                       started_at := some 3, finished_at := none })] }
        fs := [], launches := [], writes := [] }).1 = none ∧
    ∃ entry2,
      findTicket
        (run_worker envW ticketT1 manifestW ⟨["", "root"]⟩
          ["", "root", "state.json"] optsW
          { state := { workflow_name := "demo"
                       tickets := [("T1",
                         { ticket_id := "T1", status := TicketStatus.RunningWorker
                           worker_log := none, review_log := none, note := none
                           started_at := some 3, finished_at := none })] }
            fs := [], launches := [], writes := [] }).2.state.tickets
        "T1" = some entry2 ∧
      entry2.status = TicketStatus.NeedsReview ∧
      entry2.note = some "Worker completed successfully" := by
  have h := c3_worker_outcome envW ticketT1 manifestW ⟨["", "root"]⟩
    ["", "root", "state.json"] optsW
    { state := { workflow_name := "demo"
                 tickets := [("T1",
                   { ticket_id := "T1", status := TicketStatus.RunningWorker
                     worker_log := none, review_log := none, note := none
                     started_at := some 3, finished_at := none })] }
      fs := [], launches := [], writes := [] }
    { ticket_id := "T1", status := TicketStatus.RunningWorker
      worker_log := none, review_log := none, note := none
      started_at := some 3, finished_at := none }
    { success := true, status_code := some 0, stdout := "", stderr := "" }
    (by decide) rfl rfl rfl
  obtain ⟨h1, entry2, h2, h3, _⟩ := h
  exact ⟨h1, entry2, h2, (h3 rfl).1, (h3 rfl).2.1⟩

/-- C6: a ticket whose resolved working directory does not exist aborts
the whole remaining run with an error before any session is launched for
it, leaving the world (state, file system, traces) untouched — in
particular no per-ticket `Failed` status is recorded. -/
theorem c6_missing_dir_aborts (env : Env) (ticket : TicketSpec)
    (manifest : WorkflowManifest) (layout : WorkflowLayout) (state_path : FsPath)
    (opts : WorkflowRunOptions) (w : World) (entry : TicketRunState)
    (rest : List TicketSpec)
    (h : findTicket w.state.tickets ticket.id = some entry)
    (hterm : ¬ entry.status = TicketStatus.Complete ∧
      ¬ entry.status = TicketStatus.Failed ∧
      ¬ entry.status = TicketStatus.Blocked)
    (hdir : env.dirExists (TicketSpec.resolved_working_dir ticket
      (WorkflowManifest.manifest_dir manifest)) = false) :
    ∃ e, process_all env manifest layout state_path opts (ticket :: rest) w
      = (some e, w) := by
  obtain ⟨hc, hfl, hb⟩ := hterm
  have hworker : run_worker env ticket manifest layout state_path opts w
      = (some ("working directory "
          ++ FsPath.render (TicketSpec.resolved_working_dir ticket
            (WorkflowManifest.manifest_dir manifest))
          ++ " does not exist for ticket " ++ ticket.id), w) := by
    simp only [run_worker, if_pos hdir]
  have hreview : ∀ hin : entry.status = TicketStatus.NeedsReview
        ∨ entry.status = TicketStatus.RunningReview,
      run_review env ticket manifest layout state_path opts w
      = (some ("working directory "
          ++ FsPath.render (TicketSpec.resolved_working_dir ticket
            (WorkflowManifest.manifest_dir manifest))
          ++ " does not exist for ticket " ++ ticket.id), w) := by
    intro hin
    have h1 : ¬ (entry.status = TicketStatus.Failed
        ∨ entry.status = TicketStatus.Complete
        ∨ entry.status = TicketStatus.Blocked) := by
      intro hcontra
      rcases hcontra with hx | hx | hx
      · exact hfl hx
      · exact hc hx
      · exact hb hx
    have h2 : ¬¬ (entry.status = TicketStatus.NeedsReview
        ∨ entry.status = TicketStatus.RunningReview) := fun hn => hn hin
    simp only [run_review, h, if_neg h1, if_neg h2, if_pos hdir]
  refine ⟨"working directory "
      ++ FsPath.render (TicketSpec.resolved_working_dir ticket
        (WorkflowManifest.manifest_dir manifest))
      ++ " does not exist for ticket " ++ ticket.id, ?_⟩
  cases hstat : entry.status with
  | Complete => exact absurd hstat hc
  | Failed => exact absurd hstat hfl
  | Blocked => exact absurd hstat hb
  | NeedsReview =>
    simp only [process_all, process_ticket, h, hstat, hreview (Or.inl hstat)]
  | RunningReview =>
    simp only [process_all, process_ticket, h, hstat, hreview (Or.inr hstat)]
  | Pending =>
    simp only [process_all, process_ticket, h, hstat, hworker]
  | RunningWorker =>
    simp only [process_all, process_ticket, h, hstat, hworker]

/-- Witness for C6: a pending ticket in an environment with no
directories. -/
theorem c6_missing_dir_aborts_witness :
    ∃ e, process_all envNoDir manifestW ⟨["", "root"]⟩ ["", "root", "state.json"]
      optsW (ticketT1 :: []) worldP = (some e, worldP) :=
  c6_missing_dir_aborts envNoDir ticketT1 manifestW ⟨["", "root"]⟩
    ["", "root", "state.json"] optsW worldP (freshTicket "T1") []
    (by decide) (by decide) rfl

theorem run_worker_writes (env : Env) (ticket : TicketSpec)
    (manifest : WorkflowManifest) (layout : WorkflowLayout) (state_path : FsPath)
    (opts : WorkflowRunOptions) (w : World) :
    ∀ p ∈ (run_worker env ticket manifest layout state_path opts w).2.writes,
      p ∈ w.writes ∨ allowedWrite p.2 := by
  by_cases h3 : env.dirExists (TicketSpec.resolved_working_dir ticket
      (WorkflowManifest.manifest_dir manifest)) = false
  · have hrr : (run_worker env ticket manifest layout state_path opts w).2 = w := by
      simp only [run_worker, if_pos h3]
    rw [hrr]
    exact fun p hp => Or.inl hp
  · cases hf : findTicket w.state.tickets ticket.id with
    | none =>
      cases hr : env.runSession (worker_request manifest ticket layout opts) with
      | error e =>
        simp only [run_worker, if_neg h3, hf, hr, World.save]
        exact fun p hp => Or.inl hp
      | ok result =>
        simp only [run_worker, if_neg h3, hf, hr, World.save]
        exact fun p hp => Or.inl hp
    | some entry =>
      have hset : findTicket
          (setTicket w.state.tickets ticket.id
            (mark_running env.now
              (set_worker_log entry (WorkflowLayout.worker_log_path layout ticket.id))
              TicketStatus.RunningWorker)) ticket.id
          = some (mark_running env.now
              (set_worker_log entry (WorkflowLayout.worker_log_path layout ticket.id))
              TicketStatus.RunningWorker) :=
        findTicket_setTicket_self _ _ _ entry hf
      cases hr : env.runSession (worker_request manifest ticket layout opts) with
      | error e =>
        simp only [run_worker, if_neg h3, hf, hr, World.save]
        intro p hp
        rcases List.mem_append.1 hp with hin | hone
        · exact Or.inl hin
        · rcases List.mem_singleton.1 hone with rfl
          exact Or.inr (Or.inl rfl)
      | ok result =>
        simp only [run_worker, if_neg h3, hf, hr, World.save, hset]
        intro p hp
        rcases List.mem_append.1 hp with hp1 | hone
        · rcases List.mem_append.1 hp1 with hin | hone1
          · exact Or.inl hin
          · rcases List.mem_singleton.1 hone1 with rfl
            exact Or.inr (Or.inl rfl)
        · rcases List.mem_singleton.1 hone with rfl
          refine Or.inr ?_
          by_cases hs : result.success <;>
            simp [allowedWrite, hs]

theorem run_review_writes (env : Env) (ticket : TicketSpec)
    (manifest : WorkflowManifest) (layout : WorkflowLayout) (state_path : FsPath)
    (opts : WorkflowRunOptions) (w : World) :
    ∀ p ∈ (run_review env ticket manifest layout state_path opts w).2.writes,
      p ∈ w.writes ∨ allowedWrite p.2 := by
  cases hf : findTicket w.state.tickets ticket.id with
  | none =>
    have hrr : run_review env ticket manifest layout state_path opts w = (none, w) := by
      simp only [run_review, hf]
    rw [hrr]
    exact fun p hp => Or.inl hp
  | some entry =>
    by_cases h1 : entry.status = TicketStatus.Failed
        ∨ entry.status = TicketStatus.Complete
        ∨ entry.status = TicketStatus.Blocked
    · have hrr : run_review env ticket manifest layout state_path opts w = (none, w) := by
        simp only [run_review, hf, if_pos h1]
      rw [hrr]
      exact fun p hp => Or.inl hp
    · by_cases h2 : ¬ (entry.status = TicketStatus.NeedsReview
          ∨ entry.status = TicketStatus.RunningReview)
      · have hrr : run_review env ticket manifest layout state_path opts w = (none, w) := by
          simp only [run_review, hf, if_neg h1, if_pos h2]
        rw [hrr]
        exact fun p hp => Or.inl hp
      · by_cases h3 : env.dirExists (TicketSpec.resolved_working_dir ticket
            (WorkflowManifest.manifest_dir manifest)) = false
        · have hrr : (run_review env ticket manifest layout state_path opts w).2 = w := by
            simp only [run_review, hf, if_neg h1, if_neg h2, if_pos h3]
          rw [hrr]
          exact fun p hp => Or.inl hp
        · have hset : findTicket
              (setTicket w.state.tickets ticket.id
                (mark_running env.now
                  (set_review_log entry
                    (WorkflowLayout.review_log_path layout ticket.id))
                  TicketStatus.RunningReview)) ticket.id
              = some (mark_running env.now
                  (set_review_log entry
                    (WorkflowLayout.review_log_path layout ticket.id))
                  TicketStatus.RunningReview) :=
            findTicket_setTicket_self _ _ _ entry hf
          cases hr : env.runSession (review_request manifest ticket layout opts) with
          | error e =>
            simp only [run_review, hf, if_neg h1, if_neg h2, if_neg h3, hr, World.save]
            intro p hp
            rcases List.mem_append.1 hp with hin | hone
            · exact Or.inl hin
            · rcases List.mem_singleton.1 hone with rfl
              exact Or.inr (Or.inr (Or.inr (Or.inl rfl)))
          | ok result =>
            simp only [run_review, hf, if_neg h1, if_neg h2, if_neg h3, hr,
              World.save, hset]
            intro p hp
            rcases List.mem_append.1 hp with hp1 | hone
            · rcases List.mem_append.1 hp1 with hin | hone1
              · exact Or.inl hin
              · rcases List.mem_singleton.1 hone1 with rfl
                exact Or.inr (Or.inr (Or.inr (Or.inl rfl)))
            · rcases List.mem_singleton.1 hone with rfl
              refine Or.inr ?_
              by_cases hs : result.success <;>
                simp [allowedWrite, hs]

theorem process_ticket_writes (env : Env) (ticket : TicketSpec)
    (manifest : WorkflowManifest) (layout : WorkflowLayout) (state_path : FsPath)
    (opts : WorkflowRunOptions) (w : World) :
    ∀ p ∈ (process_ticket env ticket manifest layout state_path opts w).2.writes,
      p ∈ w.writes ∨ allowedWrite p.2 := by
  cases hf : findTicket w.state.tickets ticket.id with
  | none =>
    simp only [process_ticket, hf]
    exact fun p hp => Or.inl hp
  | some entry =>
    cases hstat : entry.status with
    | Complete =>
      simp only [process_ticket, hf, hstat]
      exact fun p hp => Or.inl hp
    | Failed =>
      simp only [process_ticket, hf, hstat]
      exact fun p hp => Or.inl hp
    | Blocked =>
      simp only [process_ticket, hf, hstat]
      exact fun p hp => Or.inl hp
    | NeedsReview =>
      simp only [process_ticket, hf, hstat]
      exact run_review_writes env ticket manifest layout state_path opts w
    | RunningReview =>
      simp only [process_ticket, hf, hstat]
      exact run_review_writes env ticket manifest layout state_path opts w
    | Pending =>
      rcases hw : run_worker env ticket manifest layout state_path opts w with ⟨e1, w1⟩
      have hworker := run_worker_writes env ticket manifest layout state_path opts w
      rw [hw] at hworker
      cases e1 with
      | none =>
        simp only [process_ticket, hf, hstat, hw]
        intro p hp
        rcases run_review_writes env ticket manifest layout state_path opts w1 p hp
          with hin | ha
        · exact hworker p hin
        · exact Or.inr ha
      | some e =>
        simp only [process_ticket, hf, hstat, hw]
        exact hworker
    | RunningWorker =>
      rcases hw : run_worker env ticket manifest layout state_path opts w with ⟨e1, w1⟩
      have hworker := run_worker_writes env ticket manifest layout state_path opts w
      rw [hw] at hworker
      cases e1 with
      | none =>
        simp only [process_ticket, hf, hstat, hw]
        intro p hp
        rcases run_review_writes env ticket manifest layout state_path opts w1 p hp
          with hin | ha
        · exact hworker p hin
        · exact Or.inr ha
      | some e =>
        simp only [process_ticket, hf, hstat, hw]
        exact hworker

theorem process_all_writes (env : Env) (manifest : WorkflowManifest)
    (layout : WorkflowLayout) (state_path : FsPath) (opts : WorkflowRunOptions)
    (tickets : List TicketSpec) (w : World) :
    ∀ p ∈ (process_all env manifest layout state_path opts tickets w).2.writes,
      p ∈ w.writes ∨ allowedWrite p.2 := by
  induction tickets generalizing w with
  | nil => exact fun p hp => Or.inl hp
  | cons t rest ih =>
    rcases hpt : process_ticket env t manifest layout state_path opts w with ⟨e1, w1⟩
    have hticket := process_ticket_writes env t manifest layout state_path opts w
    rw [hpt] at hticket
    cases e1 with
    | none =>
      simp only [process_all, hpt]
      intro p hp
      rcases ih w1 p hp with hin | ha
      · exact hticket p hin
      · exact Or.inr ha
    | some e =>
      simp only [process_all, hpt]
      exact hticket

theorem run_workflow_writes (env : Env) (opts : WorkflowRunOptions)
    (manifest : WorkflowManifest) (fs0 : FileMap WorkflowState) :
    (run_workflow env opts manifest fs0).2.writes
      = (process_all env manifest
          ⟨resolve_artifacts_dir manifest opts.artifacts_dir⟩
          (WorkflowLayout.state_file
            ⟨resolve_artifacts_dir manifest opts.artifacts_dir⟩)
          opts manifest.tickets
          { state := initial_state opts fs0
              (WorkflowLayout.state_file
                ⟨resolve_artifacts_dir manifest opts.artifacts_dir⟩) manifest
            fs := fs0
            launches := []
            writes := [] }).2.writes := by
  simp only [run_workflow]
  split <;> rename_i heq
  · rw [heq]
  · rw [heq]
    rfl

/-- C8: no transition of the orchestrator ever assigns `Blocked`: every
status written during a whole run is one of `RunningWorker`,
`NeedsReview`, `RunningReview`, `Complete`, `Failed`. -/
theorem c8_no_blocked (env : Env) (opts : WorkflowRunOptions)
    (manifest : WorkflowManifest) (fs0 : FileMap WorkflowState) :
    ∀ p ∈ (run_workflow env opts manifest fs0).2.writes,
      allowedWrite p.2 ∧ ¬ p.2 = TicketStatus.Blocked := by
  intro p hp
  rw [run_workflow_writes] at hp
  rcases process_all_writes env manifest
      ⟨resolve_artifacts_dir manifest opts.artifacts_dir⟩
      (WorkflowLayout.state_file
        ⟨resolve_artifacts_dir manifest opts.artifacts_dir⟩)
      opts manifest.tickets _ p hp with hin | ha
  · cases hin
  · refine ⟨ha, ?_⟩
    rcases ha with h | h | h | h | h <;> (rw [h]; intro hb; cases hb)

/-- Witness for C8: the first status written in a successful one-ticket
run is `RunningWorker`. -/
theorem c8_no_blocked_witness :
    allowedWrite (("T1", TicketStatus.RunningWorker) : String × TicketStatus).2 ∧
    ¬ (("T1", TicketStatus.RunningWorker) : String × TicketStatus).2
      = TicketStatus.Blocked :=
  c8_no_blocked envW optsW manifestW [] ("T1", TicketStatus.RunningWorker)
    (by decide)

/-- C9: the in-memory state comes from the saved state file exactly when
the resume flag is set and the file exists — otherwise the run starts
from a fresh all-`Pending` state — and a completed run's final save
overwrites whatever the state path held. -/
theorem c9_resume_semantics (env : Env) (opts : WorkflowRunOptions)
    (manifest : WorkflowManifest) (fs0 : FileMap WorkflowState) :
    (opts.resume = false →
      initial_state opts fs0
        (WorkflowLayout.state_file
          ⟨resolve_artifacts_dir manifest opts.artifacts_dir⟩) manifest
        = initializeState manifest) ∧
    (fsGet fs0 (WorkflowLayout.state_file
        ⟨resolve_artifacts_dir manifest opts.artifacts_dir⟩) = none →
      initial_state opts fs0
        (WorkflowLayout.state_file
          ⟨resolve_artifacts_dir manifest opts.artifacts_dir⟩) manifest
        = initializeState manifest) ∧
    (∀ st, opts.resume = true →
      fsGet fs0 (WorkflowLayout.state_file
        ⟨resolve_artifacts_dir manifest opts.artifacts_dir⟩) = some st →
      initial_state opts fs0
        (WorkflowLayout.state_file
          ⟨resolve_artifacts_dir manifest opts.artifacts_dir⟩) manifest
        = sync_with_manifest st manifest) ∧
    (∀ w, run_workflow env opts manifest fs0 = (none, w) →
      fsGet w.fs (WorkflowLayout.state_file
        ⟨resolve_artifacts_dir manifest opts.artifacts_dir⟩) = some w.state) := by
  refine ⟨?_, ?_, ?_, ?_⟩
  · intro hres
    unfold initial_state
    rw [hres]
  · intro hnone
    unfold initial_state
    rw [hnone]
    cases opts.resume <;> rfl
  · intro st hres hsome
    unfold initial_state
    rw [hres, hsome]
  · intro w hrun
    rcases hpa : process_all env manifest
        ⟨resolve_artifacts_dir manifest opts.artifacts_dir⟩
        (WorkflowLayout.state_file
          ⟨resolve_artifacts_dir manifest opts.artifacts_dir⟩)
        opts manifest.tickets
        { state := initial_state opts fs0
            (WorkflowLayout.state_file
              ⟨resolve_artifacts_dir manifest opts.artifacts_dir⟩) manifest
          fs := fs0
          launches := []
          writes := [] } with ⟨e1, w1⟩
    rw [show run_workflow env opts manifest fs0
        = (match (e1, w1) with
          | (some e, w2) => (some e, w2)
          | (none, w2) => (none, World.save w2
              (WorkflowLayout.state_file
                ⟨resolve_artifacts_dir manifest opts.artifacts_dir⟩)))
      from by rw [run_workflow.eq_1, hpa]] at hrun
    cases e1 with
    | some e => cases hrun
    | none =>
      cases hrun
      show fsGet (fsSet w1.fs _ w1.state) _ = some w1.state
      rw [fsGet_fsSet, if_pos rfl]

/-- Witness for C9: a non-resume run over a file system that already
holds a state at the state path starts fresh, and the completed run's
save puts the final state at the state path. -/
theorem c9_resume_semantics_witness :
    (initial_state optsW
        [(WorkflowLayout.state_file
            ⟨resolve_artifacts_dir manifestW none⟩, stateNR)]
        (WorkflowLayout.state_file ⟨resolve_artifacts_dir manifestW none⟩)
        manifestW = initializeState manifestW) ∧
    (initial_state optsResume []
        (WorkflowLayout.state_file ⟨resolve_artifacts_dir manifestW none⟩)
        manifestW = initializeState manifestW) ∧
    (initial_state optsResume
        [(WorkflowLayout.state_file
            ⟨resolve_artifacts_dir manifestW none⟩, stateNR)]
        (WorkflowLayout.state_file ⟨resolve_artifacts_dir manifestW none⟩)
        manifestW = sync_with_manifest stateNR manifestW) ∧
    fsGet (run_workflow envW optsW manifestW []).2.fs
        (WorkflowLayout.state_file ⟨resolve_artifacts_dir manifestW none⟩)
      = some (run_workflow envW optsW manifestW []).2.state := by
  refine ⟨?_, ?_, ?_, ?_⟩
  · exact (c9_resume_semantics envW optsW manifestW
      [(WorkflowLayout.state_file
          ⟨resolve_artifacts_dir manifestW none⟩, stateNR)]).1 rfl
  · exact (c9_resume_semantics envW optsResume manifestW []).2.1 rfl
  · exact (c9_resume_semantics envW optsResume manifestW
      [(WorkflowLayout.state_file
          ⟨resolve_artifacts_dir manifestW none⟩, stateNR)]).2.2.1 stateNR rfl (by decide)
  · exact (c9_resume_semantics envW optsW manifestW []).2.2.2
      (run_workflow envW optsW manifestW []).2 rfl

end CodexWorkflow
